import Mathlib

/-!
Shallow embedding of `src/config_builder.py` from the sports-poetry-demo
repository, together with theorems settling the frozen claims about it.

Python values that can appear in a configuration document are modelled by
the inductive type `PyVal`; Python dictionaries become insertion-ordered
association lists with in-place update semantics (`dictSet` overwrites the
existing entry in place and appends new keys at the end, matching CPython
dict behaviour).  Methods that mutate `self.config` become functions from
the configuration dictionary to `Except`; the error carries the state of
the document at the moment the exception is raised, so that atomicity
statements are meaningful.  The fluent `return self` of the Python code is
modelled by returning the (possibly updated) document.
-/

set_option maxHeartbeats 1000000

namespace SportsPoetry

/-- Python values appearing in configuration documents: strings, integers,
booleans, `None`, lists, and string-keyed dictionaries (as insertion-ordered
association lists). -/
inductive PyVal where
  | str (s : String)
  | int (n : Int)
  | bool (b : Bool)
  | none
  | list (xs : List PyVal)
  | dict (xs : List (String × PyVal))

/-- A Python dictionary with string keys. -/
abbrev Dict := List (String × PyVal)

/-- The configuration document held in `ConfigBuilder.config`. -/
abbrev Config := Dict

/-- Lookup of a key in a dictionary (`d[k]` / `d.get(k)` distinction is made
at use sites via `Option`). -/
def dictGet : Dict → String → Option PyVal
  | [], _ => Option.none
  | (k, v) :: rest, key => if k = key then some v else dictGet rest key

/-- Python `d.get(key)` with a default. -/
def dictGetD (d : Dict) (key : String) (dflt : PyVal) : PyVal :=
  (dictGet d key).getD dflt

/-- Python `d[key] = v`: overwrite in place if the key exists, else append. -/
def dictSet : Dict → String → PyVal → Dict
  | [], key, v => [(key, v)]
  | (k, w) :: rest, key, v =>
      if k = key then (key, v) :: rest else (k, w) :: dictSet rest key v

/-- Python `key in d`. -/
def dictContains (d : Dict) (key : String) : Bool :=
  (dictGet d key).isSome

/-- Python truthiness (`bool(v)`): empty string, zero, `False`, `None`, and
empty containers are falsy. -/
def truthy : PyVal → Bool
  | .str s => !(s == "")
  | .int n => !(n == 0)
  | .bool b => b
  | .none => false
  | .list xs => !xs.isEmpty
  | .dict xs => !xs.isEmpty

/-- Python type name of a value, used in exception messages. -/
def pyTypeName : PyVal → String
  | .str _ => "str"
  | .int _ => "int"
  | .bool _ => "bool"
  | .none => "NoneType"
  | .list _ => "list"
  | .dict _ => "dict"

mutual
/-- Python `==` on the `PyVal` universe: structural on strings, numbers,
`None`; `True == 1` and `False == 0` across bool/int; elementwise on lists;
key-set plus valuewise (insertion-order independent) on dictionaries. -/
def pyEq : PyVal → PyVal → Bool
  | .str a, .str b => a == b
  | .int a, .int b => a == b
  | .bool a, .bool b => a == b
  | .bool a, .int b => (if a then (1 : Int) else 0) == b
  | .int a, .bool b => a == (if b then (1 : Int) else 0)
  | .none, .none => true
  | .list a, .list b => pyEqList a b
  | .dict a, .dict b => a.length == b.length && pyEqDictSub a b
  | _, _ => false

/-- Elementwise Python `==` on lists. -/
def pyEqList : List PyVal → List PyVal → Bool
  | [], [] => true
  | x :: xs, y :: ys => pyEq x y && pyEqList xs ys
  | _, _ => false

/-- Every entry of the first dictionary is present in the second with a
Python-equal value. -/
def pyEqDictSub : List (String × PyVal) → List (String × PyVal) → Bool
  | [], _ => true
  | (k, v) :: rest, b =>
      (match dictGet b k with
       | some w => pyEq v w
       | Option.none => false) && pyEqDictSub rest b
end

/-- Exceptions that the embedded code can raise.  `validationError` models
`ConfigValidationError`; the others model built-in Python exceptions that
escape the module (attribute errors from calling `.strip()`/`.get()` on a
non-string/non-dict, key errors from `d[k]`, type errors from item
assignment on a non-dict). -/
inductive PyErr where
  | validationError (msg : String)
  | attributeError (msg : String)
  | keyError (key : String)
  | typeError (msg : String)

/-- `ConfigBuilder.VALID_GENERATION_MODES`. -/
def VALID_GENERATION_MODES : List String := ["template", "llm"]

/-- `ConfigBuilder.VALID_LLM_PROVIDERS`. -/
def VALID_LLM_PROVIDERS : List String := ["together", "huggingface"]

/-- `ConfigBuilder.MIN_SPORTS`. -/
def MIN_SPORTS : Nat := 3

/-- `ConfigBuilder.MAX_SPORTS`. -/
def MAX_SPORTS : Nat := 5

/-- `ConfigBuilder.DEFAULT_LLM_CONFIG`. -/
def DEFAULT_LLM_CONFIG : Dict :=
  [("provider", .str "together"),
   ("model", .str "meta-llama/Llama-3.3-70B-Instruct-Turbo-Free")]

/-- The document created by `ConfigBuilder.__init__`. -/
def initConfig : Config :=
  [("sports", .list []),
   ("retry_enabled", .bool true),
   ("generation_mode", .str "template")]

/-- The ASCII whitespace characters stripped by Python `str.strip()`. -/
def isPySpace (ch : Char) : Bool :=
  ch == ' ' || ch == '\t' || ch == '\n' || ch == '\r' || ch == '\x0b' || ch == '\x0c'

/-- Python `str.strip()`: remove leading and trailing whitespace. -/
def pyStrip (s : String) : String :=
  ⟨((s.data.dropWhile isPySpace).reverse.dropWhile isPySpace).reverse⟩

/-- Python `str.lower()` (on the ASCII range relevant here). -/
def pyLower (s : String) : String :=
  ⟨s.data.map Char.toLower⟩

/-- The normalization applied to each sport name: `sport.strip().lower()`. -/
def normalizeSport (s : String) : String :=
  pyLower (pyStrip s)

/-- The list comprehension `[sport.strip().lower() for sport in sports]`:
normalizes each element left to right, raising `AttributeError` at the
first element that is not a string. -/
def stripLowerAll : List PyVal → Except PyErr (List String)
  | [] => .ok []
  | .str s :: rest => (stripLowerAll rest).map (fun ns => normalizeSport s :: ns)
  | v :: _ => .error (.attributeError (pyTypeName v ++ " object has no attribute strip"))

/-- The duplicate test `len(normalized_sports) != len(set(normalized_sports))`:
true exactly when the list has a repeated element. -/
def hasDupStr : List String → Bool
  | [] => false
  | x :: xs => xs.contains x || hasDupStr xs

/-- `ConfigBuilder.with_sports`.  On error, the returned state is the
document at the moment the exception is raised. -/
def with_sports (sports : PyVal) (c : Config) : Except (PyErr × Config) Config :=
  match sports with
  | .list xs =>
    if xs.length < MIN_SPORTS then
      .error (.validationError
        ("Must specify at least " ++ toString MIN_SPORTS ++ " sports (got "
          ++ toString xs.length ++ ")"), c)
    else if MAX_SPORTS < xs.length then
      .error (.validationError
        ("Cannot specify more than " ++ toString MAX_SPORTS ++ " sports (got "
          ++ toString xs.length ++ ")"), c)
    else
      match stripLowerAll xs with
      | .error e => .error (e, c)
      | .ok normalized =>
        if hasDupStr normalized then
          .error (.validationError "Sports list contains duplicates", c)
        else if normalized.any (fun s => s == "") then
          .error (.validationError "Sports list contains empty values", c)
        else
          .ok (dictSet c "sports" (.list (normalized.map .str)))
  | _ => .error (.validationError "Sports must be a list", c)

/-- `ConfigBuilder.with_retry`: unconditional set, no validation. -/
def with_retry (enabled : Bool) (c : Config) : Config :=
  dictSet c "retry_enabled" (.bool enabled)

/-- The `Ensure LLM config exists` block shared by the three LLM-related
setters: inject a copy of the default block exactly when the `llm` key is
absent. -/
def ensureLlm (c : Config) : Config :=
  if dictContains c "llm" then c else dictSet c "llm" (.dict DEFAULT_LLM_CONFIG)

/-- `ConfigBuilder.with_generation_mode`.  The Python method first writes
`generation_mode`, then injects the default `llm` block when switching to
`llm` mode with no block present. -/
def with_generation_mode (mode : String) (c : Config) : Except (PyErr × Config) Config :=
  if !(VALID_GENERATION_MODES.contains mode) then
    .error (.validationError
      ("Invalid generation mode: " ++ mode ++ ". Must be one of: "
        ++ String.intercalate ", " VALID_GENERATION_MODES), c)
  else if mode == "llm" && !(dictContains (dictSet c "generation_mode" (.str mode)) "llm") then
    .ok (dictSet (dictSet c "generation_mode" (.str mode)) "llm" (.dict DEFAULT_LLM_CONFIG))
  else
    .ok (dictSet c "generation_mode" (.str mode))

/-- `ConfigBuilder.with_llm_provider`. -/
def with_llm_provider (provider : String) (c : Config) : Except (PyErr × Config) Config :=
  if !(VALID_LLM_PROVIDERS.contains provider) then
    .error (.validationError
      ("Invalid LLM provider: " ++ provider ++ ". Must be one of: "
        ++ String.intercalate ", " VALID_LLM_PROVIDERS), c)
  else
    match dictGet (ensureLlm c) "llm" with
    | some (.dict l) =>
        .ok (dictSet (dictSet (ensureLlm c) "llm" (.dict (dictSet l "provider" (.str provider))))
              "generation_mode" (.str "llm"))
    | some v => .error (.typeError (pyTypeName v ++ " object does not support item assignment"),
                        ensureLlm c)
    | Option.none => .error (.keyError "llm", ensureLlm c)

/-- `ConfigBuilder.with_llm_model`: no enum validation on the model string. -/
def with_llm_model (model : String) (c : Config) : Except (PyErr × Config) Config :=
  match dictGet (ensureLlm c) "llm" with
  | some (.dict l) =>
      .ok (dictSet (dictSet (ensureLlm c) "llm" (.dict (dictSet l "model" (.str model))))
            "generation_mode" (.str "llm"))
  | some v => .error (.typeError (pyTypeName v ++ " object does not support item assignment"),
                      ensureLlm c)
  | Option.none => .error (.keyError "llm", ensureLlm c)

/-- `ConfigBuilder.validate`.  Raises `KeyError` when a required key is
absent from a document wrapped verbatim by `from_dict`, `AttributeError`
when the `llm` entry is not a dictionary, otherwise either a
`ConfigValidationError` or the unmodified document. -/
def validate (c : Config) : Except PyErr Config :=
  match dictGet c "sports" with
  | Option.none => .error (.keyError "sports")
  | some sports =>
    if !truthy sports then
      .error (.validationError "Sports list is required")
    else
      match dictGet c "generation_mode" with
      | Option.none => .error (.keyError "generation_mode")
      | some mode =>
        if pyEq mode (.str "llm") then
          match dictGet c "llm" with
          | Option.none => .error (.validationError "LLM configuration required for LLM mode")
          | some (.dict l) =>
            if !truthy (dictGetD l "provider" .none) then
              .error (.validationError "LLM provider is required for LLM mode")
            else if !truthy (dictGetD l "model" .none) then
              .error (.validationError "LLM model is required for LLM mode")
            else
              .ok c
          | some v => .error (.attributeError (pyTypeName v ++ " object has no attribute get"))
        else
          .ok c

/-- JSON values, as produced by `json.dump` and consumed by `json.load`. -/
inductive Json where
  | str (s : String)
  | num (n : Int)
  | jbool (b : Bool)
  | null
  | arr (xs : List Json)
  | obj (xs : List (String × Json))

mutual
/-- Serialization of a Python value by `json.dump` (ignoring concrete text
layout; booleans become JSON booleans, `None` becomes `null`, dictionary
insertion order is preserved). -/
def toJson : PyVal → Json
  | .str s => .str s
  | .int n => .num n
  | .bool b => .jbool b
  | .none => .null
  | .list xs => .arr (toJsonList xs)
  | .dict xs => .obj (toJsonDict xs)

/-- Serialization of a list of Python values. -/
def toJsonList : List PyVal → List Json
  | [] => []
  | x :: xs => toJson x :: toJsonList xs

/-- Serialization of a dictionary. -/
def toJsonDict : List (String × PyVal) → List (String × Json)
  | [] => []
  | (k, v) :: xs => (k, toJson v) :: toJsonDict xs
end

mutual
/-- Deserialization by `json.load`. -/
def fromJson : Json → PyVal
  | .str s => .str s
  | .num n => .int n
  | .jbool b => .bool b
  | .null => .none
  | .arr xs => .list (fromJsonList xs)
  | .obj xs => .dict (fromJsonDict xs)

/-- Deserialization of a JSON array. -/
def fromJsonList : List Json → List PyVal
  | [] => []
  | x :: xs => fromJson x :: fromJsonList xs

/-- Deserialization of a JSON object. -/
def fromJsonDict : List (String × Json) → List (String × PyVal)
  | [] => []
  | (k, v) :: xs => (k, fromJson v) :: fromJsonDict xs
end

/-- `ConfigBuilder.from_dict`: wraps the mapping verbatim (`data.copy()` is
a shallow copy, which is the identity in this value-level model). -/
def from_dict (data : Dict) : Config :=
  data

/-- `ConfigBuilder.save`: validates, then serializes the document to JSON.
The filesystem is modelled by returning the written JSON value. -/
def save_doc (c : Config) : Except PyErr Json :=
  (validate c).map (fun cfg => toJson (.dict cfg))

/-- `ConfigBuilder.load`: parses the JSON file content and delegates to
`from_dict` (which copies the mapping verbatim, with no validation). -/
def load_doc (j : Json) : Except PyErr Config :=
  match fromJson j with
  | .dict d => .ok (from_dict d)
  | v => .error (.attributeError (pyTypeName v ++ " object has no attribute copy"))

/-- `compute_changes_from_default`: iterates over the keys of `new_config`
in insertion order, comparing each value against `default_config.get(key)`
(so a key missing from the base compares as `None`); a change record is the
key together with its old and new value (the Python `{"old": .., "new": ..}`
mapping is modelled as the pair of values). -/
def compute_changes_from_default (default_config new_config : Dict) :
    List String × List (String × (PyVal × PyVal)) :=
  match new_config with
  | [] => ([], [])
  | (key, new_value) :: rest =>
    if pyEq (dictGetD default_config key .none) new_value then
      compute_changes_from_default default_config rest
    else
      (key :: (compute_changes_from_default default_config rest).1,
       (key, (dictGetD default_config key .none, new_value)) ::
         (compute_changes_from_default default_config rest).2)

/-- A single successful-or-failing call to one of the five builder
setters, with its argument. -/
inductive BOp where
  | sports (v : PyVal)
  | retry (b : Bool)
  | genMode (m : String)
  | provider (p : String)
  | model (m : String)

/-- Apply one setter call to a document. -/
def applyOp (c : Config) : BOp → Except (PyErr × Config) Config
  | .sports v => with_sports v c
  | .retry b => .ok (with_retry b c)
  | .genMode m => with_generation_mode m c
  | .provider p => with_llm_provider p c
  | .model m => with_llm_model m c

/-- Run a sequence of setter calls from a starting document; `some` exactly
when every call in the sequence succeeds. -/
def runOps : Config → List BOp → Option Config
  | c, [] => some c
  | c, op :: rest =>
    match applyOp c op with
    | .ok c1 => runOps c1 rest
    | .error _ => Option.none

/-- First list is an initial segment of the second. -/
def charsPrefix : List Char → List Char → Bool
  | [], _ => true
  | _ :: _, [] => false
  | a :: as, b :: bs => a == b && charsPrefix as bs

/-- First list occurs contiguously inside the second. -/
def charsInfix (pat : List Char) : List Char → Bool
  | [] => charsPrefix pat []
  | ch :: rest => charsPrefix pat (ch :: rest) || charsInfix pat rest

/-- Substring test: `pat` occurs contiguously in `s`. -/
def strContains (s pat : String) : Bool :=
  charsInfix pat.data s.data

/-- One statement of the generated reproduction script. -/
inductive ScriptLine where
  | shebang
  | comment (text : String)
  | importLine
  | loadDefault
  | callSports (sports : List String)
  | callGenerationMode (mode : String)
  | callProvider (provider : String)
  | callModel (model : String)
  | callRetry (enabled : Bool)
  | saveWithTimestamp

/-- Textual rendering of one script statement; setter calls interpolate
their argument literally. -/
def renderLine : ScriptLine → String
  | .shebang => "#!/usr/bin/env python3"
  | .comment text => "# " ++ text
  | .importLine => "from config_builder import ConfigBuilder"
  | .loadDefault => "builder = ConfigBuilder.load_default()"
  | .callSports sports =>
      "builder.with_sports([" ++ String.intercalate ", " (sports.map (fun s => "\x22" ++ s ++ "\x22")) ++ "])"
  | .callGenerationMode mode => "builder.with_generation_mode(\x22" ++ mode ++ "\x22)"
  | .callProvider provider => "builder.with_llm_provider(\x22" ++ provider ++ "\x22)"
  | .callModel model => "builder.with_llm_model(\x22" ++ model ++ "\x22)"
  | .callRetry enabled => "builder.with_retry(" ++ (if enabled then "True" else "False") ++ ")"
  | .saveWithTimestamp => "builder.save(output_path_with_fresh_timestamp())"

/-- Modelled from the spec: `create_generator_script` lives in
`.claude/skills/create_config/skill_helpers.py`, which is not under `src/`;
only its tests are.  Following spec section 4.3 and the test expectations:
the script loads the default config, bakes in the sports list as a literal,
includes the three LLM-specific calls (mode, provider, model — each
interpolating the supplied string literally) exactly when the mode is
`llm`, includes a retry-disabling call exactly when retry is false, and
saves to a freshly timestamped path; the documentation timestamp appears
only in a comment. -/
def create_generator_script (sports : List String) (mode provider model : String)
    (retry : Bool) (timestamp : String) : List ScriptLine :=
  [.shebang, .comment ("Generated " ++ timestamp), .importLine, .loadDefault,
   .callSports sports]
  ++ (if mode == "llm" then
        [.callGenerationMode "llm", .callProvider provider, .callModel model]
      else [])
  ++ (if retry then [] else [.callRetry false])
  ++ [.saveWithTimestamp]

/-- Recognizer for a provider-setting statement. -/
def isProviderCall : ScriptLine → Bool
  | .callProvider _ => true
  | _ => false

/-- Recognizer for a model-setting statement. -/
def isModelCall : ScriptLine → Bool
  | .callModel _ => true
  | _ => false

/-- Result classifiers used to state error-kind claims. -/
def raisesValidationError (r : Except (PyErr × Config) Config) : Bool :=
  match r with
  | .error (.validationError _, _) => true
  | _ => false

/-- True when the call raised an exception that is not a
`ConfigValidationError`. -/
def raisesNonValidationError (r : Except (PyErr × Config) Config) : Bool :=
  match r with
  | .ok _ => false
  | .error (.validationError _, _) => false
  | .error _ => true

/-- The document state carried by an error result, or the given default
when the call succeeded. -/
def errStateD (r : Except (PyErr × Config) Config) (dflt : Config) : Config :=
  match r with
  | .error (_, st) => st
  | .ok _ => dflt

/-- Every element of the list is a string value. -/
def allStrings : List PyVal → Bool
  | [] => true
  | .str _ :: rest => allStrings rest
  | _ :: _ => false

/-! ### Basic lemmas about the dictionary model -/

theorem dictGet_dictSet_same (d : Dict) (k : String) (v : PyVal) :
    dictGet (dictSet d k v) k = some v := by
  induction d with
  | nil => simp [dictSet, dictGet]
  | cons kv rest ih =>
    obtain ⟨k1, v1⟩ := kv
    by_cases h : k1 = k
    · subst h; simp [dictSet, dictGet]
    · simp [dictSet, dictGet, h, ih]

theorem dictGet_dictSet_ne (d : Dict) (k k2 : String) (v : PyVal) (h : k ≠ k2) :
    dictGet (dictSet d k v) k2 = dictGet d k2 := by
  induction d with
  | nil => simp [dictSet, dictGet, h]
  | cons kv rest ih =>
    obtain ⟨k1, v1⟩ := kv
    by_cases h1 : k1 = k
    · subst h1; simp [dictSet, dictGet, h]
    · simp [dictSet, dictGet, h1, ih]

theorem dictSet_eq_self (d : Dict) (k : String) (v : PyVal)
    (h : dictGet d k = some v) : dictSet d k v = d := by
  induction d with
  | nil => simp [dictGet] at h
  | cons kv rest ih =>
    obtain ⟨k1, v1⟩ := kv
    by_cases h1 : k1 = k
    · subst h1
      simp [dictGet] at h
      simp [dictSet, h]
    · simp [dictGet, h1] at h
      simp [dictSet, h1, ih h]

theorem dictContains_dictSet_ne (d : Dict) (k k2 : String) (v : PyVal) (h : k ≠ k2) :
    dictContains (dictSet d k v) k2 = dictContains d k2 := by
  simp [dictContains, dictGet_dictSet_ne d k k2 v h]

theorem dictGet_ensureLlm_ne (c : Config) (k : String) (h : k ≠ "llm") :
    dictGet (ensureLlm c) k = dictGet c k := by
  rw [ensureLlm]
  split
  · rfl
  · exact dictGet_dictSet_ne c "llm" k _ (Ne.symm h)

/-! ### Lemmas about sport-list normalization -/

theorem hasDupStr_eq_false_iff (l : List String) : hasDupStr l = false ↔ l.Nodup := by
  induction l with
  | nil => simp [hasDupStr]
  | cons x xs ih =>
    rw [hasDupStr, Bool.or_eq_false_iff, List.nodup_cons, ih]
    constructor
    · rintro ⟨hc, hnd⟩
      refine ⟨fun hmem => ?_, hnd⟩
      rw [List.contains_eq_any_beq, List.any_eq_false] at hc
      exact absurd (by simp) (hc x hmem)
    · rintro ⟨hmem, hnd⟩
      refine ⟨?_, hnd⟩
      rw [List.contains_eq_any_beq, List.any_eq_false]
      intro y hy hxy
      exact hmem (by rw [show x = y from by simpa using hxy] ; exact hy)

theorem stripLowerAll_map_str (l : List String) :
    stripLowerAll (l.map PyVal.str) = .ok (l.map normalizeSport) := by
  induction l with
  | nil => simp [stripLowerAll]
  | cons x xs ih => simp [stripLowerAll, ih, Except.map]

theorem stripLowerAll_length (xs : List PyVal) (ns : List String)
    (h : stripLowerAll xs = .ok ns) : ns.length = xs.length := by
  induction xs generalizing ns with
  | nil => simp [stripLowerAll] at h; simp [← h]
  | cons x rest ih =>
    match x with
    | .str s =>
      rw [stripLowerAll] at h
      match hr : stripLowerAll rest with
      | .ok ms => rw [hr] at h; simp [Except.map] at h; simp [← h, ih ms hr]
      | .error e => rw [hr] at h; simp [Except.map] at h
    | .int n => simp [stripLowerAll] at h
    | .bool b => simp [stripLowerAll] at h
    | .none => simp [stripLowerAll] at h
    | .list ys => simp [stripLowerAll] at h
    | .dict ys => simp [stripLowerAll] at h

theorem allStrings_of_map_str (l : List String) : allStrings (l.map PyVal.str) = true := by
  induction l with
  | nil => rfl
  | cons x xs ih => simpa [allStrings] using ih

theorem exists_map_str_of_allStrings (xs : List PyVal) (h : allStrings xs = true) :
    ∃ l : List String, xs = l.map PyVal.str := by
  induction xs with
  | nil => exact ⟨[], rfl⟩
  | cons x rest ih =>
    match x with
    | .str s =>
      obtain ⟨l, hl⟩ := ih (by simpa [allStrings] using h)
      exact ⟨s :: l, by simp [hl]⟩
    | .int n => simp [allStrings] at h
    | .bool b => simp [allStrings] at h
    | .none => simp [allStrings] at h
    | .list ys => simp [allStrings] at h
    | .dict ys => simp [allStrings] at h

theorem stripLowerAll_err_of_not_allStrings (xs : List PyVal) (h : allStrings xs = false) :
    ∃ m, stripLowerAll xs = .error (.attributeError m) := by
  induction xs with
  | nil => simp [allStrings] at h
  | cons x rest ih =>
    match x with
    | .str s =>
      obtain ⟨m, hm⟩ := ih (by simpa [allStrings] using h)
      exact ⟨m, by simp [stripLowerAll, hm, Except.map]⟩
    | .int n => exact ⟨_, rfl⟩
    | .bool b => exact ⟨_, rfl⟩
    | .none => exact ⟨_, rfl⟩
    | .list ys => exact ⟨_, rfl⟩
    | .dict ys => exact ⟨_, rfl⟩

theorem map_str_injective {l1 l2 : List String}
    (h : l1.map PyVal.str = l2.map PyVal.str) : l1 = l2 := by
  induction l1 generalizing l2 with
  | nil => cases l2 <;> simp_all
  | cons x xs ih =>
    cases l2 with
    | nil => simp at h
    | cons y ys =>
      simp only [List.map_cons, List.cons.injEq, PyVal.str.injEq] at h
      simp [h.1, ih h.2]

/-! ### Idempotence of the sport-name normalization -/

theorem char_toNat_ofNat (n : Nat) (h : n.isValidChar) : (Char.ofNat n).toNat = n := by
  rw [Char.ofNat, dif_pos h]
  rfl

theorem toLower_eval (c : Char) :
    Char.toLower c = if c.toNat ≥ 65 ∧ c.toNat ≤ 90 then Char.ofNat (c.toNat + 32) else c :=
  rfl

theorem isPySpace_toLower (c : Char) : isPySpace (Char.toLower c) = isPySpace c := by
  rw [toLower_eval]
  split
  · rename_i h
    have hval : (Char.ofNat (c.toNat + 32)).toNat = c.toNat + 32 :=
      char_toNat_ofNat _ (Or.inl (by omega))
    have hbig : 97 ≤ (Char.ofNat (c.toNat + 32)).toNat := by
      rw [hval]
      omega
    have h1 : isPySpace c = false := by
      rw [isPySpace]
      simp only [Bool.or_eq_false_iff, beq_eq_false_iff_ne]
      refine ⟨⟨⟨⟨⟨?_, ?_⟩, ?_⟩, ?_⟩, ?_⟩, ?_⟩ <;>
        (rintro rfl; revert h; decide)
    have h2 : isPySpace (Char.ofNat (c.toNat + 32)) = false := by
      rw [isPySpace]
      simp only [Bool.or_eq_false_iff, beq_eq_false_iff_ne]
      refine ⟨⟨⟨⟨⟨?_, ?_⟩, ?_⟩, ?_⟩, ?_⟩, ?_⟩ <;>
        (intro hEq; rw [hEq] at hbig; revert hbig; decide)
    rw [h1, h2]
  · rfl

theorem toLower_toLower (c : Char) : Char.toLower (Char.toLower c) = Char.toLower c := by
  by_cases h : c.toNat ≥ 65 ∧ c.toNat ≤ 90
  · have h1 : Char.toLower c = Char.ofNat (c.toNat + 32) := by
      rw [toLower_eval, if_pos h]
    have hval : (Char.ofNat (c.toNat + 32)).toNat = c.toNat + 32 :=
      char_toNat_ofNat _ (Or.inl (by omega))
    rw [h1, toLower_eval, if_neg (by rw [hval]; omega)]
  · have h1 : Char.toLower c = c := by
      rw [toLower_eval, if_neg h]
    rw [h1, h1]

theorem map_toLower_dropWhile (l : List Char) :
    (l.map Char.toLower).dropWhile isPySpace = (l.dropWhile isPySpace).map Char.toLower := by
  induction l with
  | nil => rfl
  | cons ch t ih =>
    rw [List.map_cons, List.dropWhile_cons, List.dropWhile_cons, isPySpace_toLower]
    by_cases hp : isPySpace ch = true
    · rw [if_pos hp, if_pos hp, ih]
    · rw [if_neg hp, if_neg hp, List.map_cons]

theorem map_toLower_rdropWhile (l : List Char) :
    List.rdropWhile isPySpace (l.map Char.toLower) =
      (List.rdropWhile isPySpace l).map Char.toLower := by
  rw [List.rdropWhile, List.rdropWhile, ← List.map_reverse, map_toLower_dropWhile,
      List.map_reverse]

theorem dropWhile_eq_self_of_prefix {α : Type} {p : α → Bool} {z y : List α}
    (hpre : z <+: y) (hy : y.dropWhile p = y) : z.dropWhile p = z := by
  rw [List.dropWhile_eq_self_iff] at hy ⊢
  intro hl
  obtain ⟨t, rfl⟩ := hpre
  have hl2 : 0 < (z ++ t).length := by
    rw [List.length_append]
    omega
  have h0 := hy hl2
  have hget : (z ++ t).get ⟨0, hl2⟩ = z.get ⟨0, hl⟩ := by
    rw [List.get_eq_getElem, List.get_eq_getElem, List.getElem_append_left hl]
  rw [hget] at h0
  exact h0

theorem normalizeSport_idem (s : String) :
    normalizeSport (normalizeSport s) = normalizeSport s := by
  have hdata : ∀ t : String,
      (normalizeSport t).data =
        (List.rdropWhile isPySpace (t.data.dropWhile isPySpace)).map Char.toLower :=
    fun t => rfl
  have key : ∀ l : List Char,
      l.dropWhile isPySpace = l → List.rdropWhile isPySpace l = l →
      (List.rdropWhile isPySpace ((l.map Char.toLower).dropWhile isPySpace)).map Char.toLower
        = l.map Char.toLower := by
    intro l h1 h2
    rw [map_toLower_dropWhile, h1, map_toLower_rdropWhile, h2, List.map_map]
    exact List.map_congr_left (fun a _ => toLower_toLower a)
  have hu1 : (List.rdropWhile isPySpace (s.data.dropWhile isPySpace)).dropWhile isPySpace
      = List.rdropWhile isPySpace (s.data.dropWhile isPySpace) :=
    dropWhile_eq_self_of_prefix
      (List.rdropWhile_prefix isPySpace (s.data.dropWhile isPySpace))
      (List.dropWhile_idempotent isPySpace s.data)
  have hu2 : List.rdropWhile isPySpace
        (List.rdropWhile isPySpace (s.data.dropWhile isPySpace))
      = List.rdropWhile isPySpace (s.data.dropWhile isPySpace) :=
    List.rdropWhile_idempotent isPySpace (s.data.dropWhile isPySpace)
  apply String.ext
  rw [hdata (normalizeSport s), hdata s]
  exact key _ hu1 hu2

theorem stripLowerAll_normalized (xs : List PyVal) (ns : List String)
    (h : stripLowerAll xs = .ok ns) : ∀ s ∈ ns, normalizeSport s = s := by
  induction xs generalizing ns with
  | nil =>
    rw [stripLowerAll] at h
    obtain rfl := Except.ok.inj h
    intro s hs
    cases hs
  | cons x rest ih =>
    match x with
    | .str s0 =>
      rw [stripLowerAll] at h
      match hr : stripLowerAll rest with
      | .ok ms =>
        rw [hr] at h
        simp only [Except.map, Except.ok.injEq] at h
        intro s hs
        rw [← h] at hs
        rcases List.mem_cons.mp hs with rfl | hs2
        · exact normalizeSport_idem s0
        · exact ih ms hr s hs2
      | .error e =>
        rw [hr] at h
        simp [Except.map] at h
    | .int n => simp [stripLowerAll] at h
    | .bool b => simp [stripLowerAll] at h
    | .none => simp [stripLowerAll] at h
    | .list ys => simp [stripLowerAll] at h
    | .dict ys => simp [stripLowerAll] at h

/-! ### Structure of successful and failing setter calls -/

theorem with_sports_ok_strong (v : PyVal) (c c1 : Config)
    (h : with_sports v c = .ok c1) :
    ∃ ns : List String, c1 = dictSet c "sports" (.list (ns.map PyVal.str)) ∧
      MIN_SPORTS ≤ ns.length ∧ ns.length ≤ MAX_SPORTS ∧ ns.Nodup ∧ (∀ s ∈ ns, s ≠ "") ∧
      ∀ s ∈ ns, normalizeSport s = s := by
  match v with
  | .str _ => simp [with_sports] at h
  | .int _ => simp [with_sports] at h
  | .bool _ => simp [with_sports] at h
  | .none => simp [with_sports] at h
  | .dict _ => simp [with_sports] at h
  | .list xs =>
    rw [with_sports] at h
    split at h
    · simp at h
    · split at h
      · simp at h
      · rename_i h3 h5
        split at h
        · simp at h
        · rename_i ns heq
          split at h
          · simp at h
          · split at h
            · simp at h
            · rename_i hd hemp
              simp only [Except.ok.injEq] at h
              refine ⟨ns, h.symm, ?_, ?_, ?_, ?_, stripLowerAll_normalized xs ns heq⟩
              · rw [stripLowerAll_length xs ns heq]; exact Nat.not_lt.mp h3
              · rw [stripLowerAll_length xs ns heq]; exact Nat.not_lt.mp h5
              · rw [Bool.not_eq_true] at hd
                exact (hasDupStr_eq_false_iff ns).mp hd
              · rw [Bool.not_eq_true, List.any_eq_false] at hemp
                intro s hs
                have := hemp s hs
                simpa using this

theorem with_generation_mode_ok_shape (m : String) (c c1 : Config)
    (h : with_generation_mode m c = .ok c1) :
    (m = "template" ∨ m = "llm") ∧
      (c1 = dictSet c "generation_mode" (PyVal.str m) ∨
       c1 = dictSet (dictSet c "generation_mode" (PyVal.str m)) "llm" (PyVal.dict DEFAULT_LLM_CONFIG)) := by
  rw [with_generation_mode] at h
  split at h
  · simp at h
  · rename_i hvalid
    have hm : m = "template" ∨ m = "llm" := by
      rw [or_iff_not_imp_left]
      simpa [VALID_GENERATION_MODES, List.contains_eq_any_beq] using hvalid
    refine ⟨hm, ?_⟩
    split at h
    · right; simpa using h.symm
    · left; simpa using h.symm

theorem with_llm_provider_ok_shape (p : String) (c c1 : Config)
    (h : with_llm_provider p c = .ok c1) :
    ∃ l : Dict, c1 = dictSet (dictSet (ensureLlm c)
        "llm" (PyVal.dict (dictSet l "provider" (PyVal.str p))))
        "generation_mode" (PyVal.str "llm") := by
  rw [with_llm_provider] at h
  split at h
  · simp at h
  · split at h
    · rename_i l heq
      exact ⟨l, by simpa using h.symm⟩
    · simp at h
    · simp at h

theorem with_llm_model_ok_shape (m : String) (c c1 : Config)
    (h : with_llm_model m c = .ok c1) :
    ∃ l : Dict, c1 = dictSet (dictSet (ensureLlm c)
        "llm" (PyVal.dict (dictSet l "model" (PyVal.str m))))
        "generation_mode" (PyVal.str "llm") := by
  rw [with_llm_model] at h
  split at h
  · rename_i l heq
    exact ⟨l, by simpa using h.symm⟩
  · simp at h
  · simp at h

/-! ### Facts about validate -/

theorem validate_ok_eq (c r : Config) (h : validate c = .ok r) : r = c := by
  rw [validate] at h
  split at h
  · simp at h
  · split at h
    · simp at h
    · split at h
      · simp at h
      · split at h
        · split at h
          · simp at h
          · split at h
            · simp at h
            · split at h
              · simp at h
              · simpa using h.symm
          · simp at h
        · simpa using h.symm

theorem validate_ok_sports_truthy (c r : Config) (h : validate c = .ok r) :
    ∃ sp, dictGet c "sports" = some sp ∧ truthy sp = true := by
  rw [validate] at h
  split at h
  · simp at h
  · rename_i sp heq
    split at h
    · simp at h
    · rename_i htr
      exact ⟨sp, heq, by simpa using htr⟩

/-! ### JSON round trip -/

mutual
theorem fromJson_toJson : (v : PyVal) → fromJson (toJson v) = v
  | .str _ => rfl
  | .int _ => rfl
  | .bool _ => rfl
  | .none => rfl
  | .list xs => by rw [toJson, fromJson, fromJsonList_toJsonList xs]
  | .dict xs => by rw [toJson, fromJson, fromJsonDict_toJsonDict xs]

theorem fromJsonList_toJsonList : (xs : List PyVal) → fromJsonList (toJsonList xs) = xs
  | [] => rfl
  | x :: xs => by rw [toJsonList, fromJsonList, fromJson_toJson x, fromJsonList_toJsonList xs]

theorem fromJsonDict_toJsonDict : (xs : List (String × PyVal)) → fromJsonDict (toJsonDict xs) = xs
  | [] => rfl
  | (k, v) :: xs => by rw [toJsonDict, fromJsonDict, fromJson_toJson v, fromJsonDict_toJsonDict xs]
end

/-! ### Preservation of invariants along setter sequences -/

theorem runOps_preserves (P : Config → Prop) (Q : BOp → Prop)
    (hstep : ∀ c op c1, P c → Q op → applyOp c op = .ok c1 → P c1) :
    ∀ (ops : List BOp) (c0 c : Config), P c0 → (∀ op ∈ ops, Q op) →
      runOps c0 ops = some c → P c := by
  intro ops
  induction ops with
  | nil =>
    intro c0 c hP _ hrun
    rw [runOps, Option.some.injEq] at hrun
    rwa [← hrun]
  | cons op rest ih =>
    intro c0 c hP hQ hrun
    rw [runOps] at hrun
    split at hrun
    · rename_i c1 heq
      exact ih c1 c (hstep c0 op c1 hP (hQ op (by simp)) heq) (fun o ho => hQ o (by simp [ho])) hrun
    · simp at hrun

theorem with_sports_list_short (xs : List PyVal) (c : Config)
    (h : xs.length < MIN_SPORTS) :
    with_sports (.list xs) c = .error (.validationError
      ("Must specify at least " ++ toString MIN_SPORTS ++ " sports (got "
        ++ toString xs.length ++ ")"), c) := by
  rw [with_sports, if_pos h]

theorem with_sports_list_long (xs : List PyVal) (c : Config)
    (h3 : MIN_SPORTS ≤ xs.length) (h5 : MAX_SPORTS < xs.length) :
    with_sports (.list xs) c = .error (.validationError
      ("Cannot specify more than " ++ toString MAX_SPORTS ++ " sports (got "
        ++ toString xs.length ++ ")"), c) := by
  rw [with_sports, if_neg (Nat.not_lt.mpr h3), if_pos h5]

theorem with_sports_strings_eval (l : List String) (c : Config)
    (h3 : MIN_SPORTS ≤ l.length) (h5 : l.length ≤ MAX_SPORTS) :
    with_sports (.list (l.map PyVal.str)) c =
      if hasDupStr (l.map normalizeSport) then
        .error (.validationError "Sports list contains duplicates", c)
      else if (l.map normalizeSport).any (fun s => s == "") then
        .error (.validationError "Sports list contains empty values", c)
      else .ok (dictSet c "sports" (.list ((l.map normalizeSport).map PyVal.str))) := by
  rw [with_sports]
  simp only [List.length_map]
  rw [if_neg (Nat.not_lt.mpr h3), if_neg (Nat.not_lt.mpr h5), stripLowerAll_map_str]

theorem with_sports_list_nonstring (xs : List PyVal) (c : Config)
    (h3 : MIN_SPORTS ≤ xs.length) (h5 : xs.length ≤ MAX_SPORTS)
    (hstr : allStrings xs = false) :
    ∃ m, with_sports (.list xs) c = .error (.attributeError m, c) := by
  obtain ⟨m, hm⟩ := stripLowerAll_err_of_not_allStrings xs hstr
  refine ⟨m, ?_⟩
  rw [with_sports, if_neg (Nat.not_lt.mpr h3), if_neg (Nat.not_lt.mpr h5), hm]

/-! ### Claim C1 -/

/-- C1: for every list of 3 to 5 strings that are pairwise distinct and
non-empty after trim-and-lowercase normalization, `with_sports` succeeds
and stores in the document's `sports` field exactly the
trimmed-and-lowercased entries in the input's original order.  The Python
method returns `self`; mutation of `self.config` is modelled by returning
the updated document. -/
theorem claim_c1_with_sports_valid (l : List String) (c : Config)
    (h3 : MIN_SPORTS ≤ l.length) (h5 : l.length ≤ MAX_SPORTS)
    (hnd : (l.map normalizeSport).Nodup)
    (hne : ∀ s ∈ l, normalizeSport s ≠ "") :
    with_sports (.list (l.map PyVal.str)) c =
      .ok (dictSet c "sports" (.list ((l.map normalizeSport).map PyVal.str))) := by
  have hd : hasDupStr (l.map normalizeSport) = false := (hasDupStr_eq_false_iff _).mpr hnd
  have hany : (l.map normalizeSport).any (fun s => s == "") = false := by
    rw [List.any_eq_false]
    intro x hx
    obtain ⟨s, hs, rfl⟩ := List.mem_map.mp hx
    simpa using hne s hs
  rw [with_sports_strings_eval l c h3 h5, if_neg (by simp [hd]), if_neg (by simp [hany])]

/-- C1 witness: a concrete mixed-case, whitespace-padded three-sport list
is accepted and stored normalized, in order. -/
theorem claim_c1_witness :
    with_sports (.list (["Basketball", " soccer ", "TENNIS"].map PyVal.str)) initConfig =
      .ok (dictSet initConfig "sports"
        (.list ((["Basketball", " soccer ", "TENNIS"].map normalizeSport).map PyVal.str))) :=
  claim_c1_with_sports_valid ["Basketball", " soccer ", "TENNIS"] initConfig
    (by decide) (by decide) (by decide) (by decide)

/-! ### Claim C2 -/

/-- C2 counterexample: a list of three non-string elements passes the count
checks and then raises `AttributeError` from `sport.strip()`, not
`ConfigValidationError`, refuting the claim that such an input must raise
the validation error. -/
theorem claim_c2_counterexample :
    raisesValidationError
      (with_sports (.list [PyVal.int 1, PyVal.int 2, PyVal.int 3]) initConfig) = false
    ∧ raisesNonValidationError
      (with_sports (.list [PyVal.int 1, PyVal.int 2, PyVal.int 3]) initConfig) = true :=
  ⟨rfl, rfl⟩

/-- C2 (amended): `with_sports` raises `ConfigValidationError` exactly when
the input is not a list, or it is a list whose length is below 3 or above 5
(the message interpolating the actual count), or it is a list of 3 to 5
strings with two entries equal after normalization or an entry normalizing
to empty; a list of 3 to 5 elements containing a non-string instead raises
an `AttributeError` (a non-`ConfigValidationError` exception). -/
theorem claim_c2_error_characterization (v : PyVal) (c : Config) :
    (raisesValidationError (with_sports v c) = true ↔
      ((∀ xs : List PyVal, v ≠ .list xs) ∨
       (∃ xs : List PyVal, v = .list xs ∧ (xs.length < MIN_SPORTS ∨ MAX_SPORTS < xs.length)) ∨
       (∃ l : List String, v = .list (l.map PyVal.str) ∧ MIN_SPORTS ≤ l.length ∧
          l.length ≤ MAX_SPORTS ∧
          (¬ (l.map normalizeSport).Nodup ∨ ∃ s ∈ l, normalizeSport s = ""))))
    ∧ (∀ xs : List PyVal, v = .list xs → xs.length < MIN_SPORTS →
        with_sports v c = .error (.validationError
          ("Must specify at least " ++ toString MIN_SPORTS ++ " sports (got "
            ++ toString xs.length ++ ")"), c))
    ∧ (∀ xs : List PyVal, v = .list xs → MIN_SPORTS ≤ xs.length → MAX_SPORTS < xs.length →
        with_sports v c = .error (.validationError
          ("Cannot specify more than " ++ toString MAX_SPORTS ++ " sports (got "
            ++ toString xs.length ++ ")"), c))
    ∧ (∀ xs : List PyVal, v = .list xs → MIN_SPORTS ≤ xs.length → xs.length ≤ MAX_SPORTS →
        allStrings xs = false →
        raisesNonValidationError (with_sports v c) = true) := by
  refine ⟨?_, ?_, ?_, ?_⟩
  · match v with
    | .str s =>
      exact iff_of_true rfl (.inl fun xs h => PyVal.noConfusion h)
    | .int n =>
      exact iff_of_true rfl (.inl fun xs h => PyVal.noConfusion h)
    | .bool b =>
      exact iff_of_true rfl (.inl fun xs h => PyVal.noConfusion h)
    | .none =>
      exact iff_of_true rfl (.inl fun xs h => PyVal.noConfusion h)
    | .dict d =>
      exact iff_of_true rfl (.inl fun xs h => PyVal.noConfusion h)
    | .list xs =>
      by_cases hlt : xs.length < MIN_SPORTS
      · refine iff_of_true ?_ (.inr (.inl ⟨xs, rfl, .inl hlt⟩))
        rw [with_sports_list_short xs c hlt]; rfl
      · by_cases hgt : MAX_SPORTS < xs.length
        · refine iff_of_true ?_ (.inr (.inl ⟨xs, rfl, .inr hgt⟩))
          rw [with_sports_list_long xs c (Nat.not_lt.mp hlt) hgt]; rfl
        · have h3 := Nat.not_lt.mp hlt
          have h5 := Nat.not_lt.mp hgt
          by_cases hstr : allStrings xs = true
          · obtain ⟨l, rfl⟩ := exists_map_str_of_allStrings xs hstr
            have h3l : MIN_SPORTS ≤ l.length := by simpa using h3
            have h5l : l.length ≤ MAX_SPORTS := by simpa using h5
            rw [with_sports_strings_eval l c h3l h5l]
            by_cases hd : hasDupStr (l.map normalizeSport) = true
            · refine iff_of_true (by rw [if_pos hd]; rfl)
                (.inr (.inr ⟨l, rfl, h3l, h5l, .inl ?_⟩))
              intro hnd
              rw [(hasDupStr_eq_false_iff _).mpr hnd] at hd
              exact Bool.noConfusion hd
            · rw [if_neg hd]
              by_cases hany : (l.map normalizeSport).any (fun s => s == "") = true
              · refine iff_of_true (by rw [if_pos hany]; rfl)
                  (.inr (.inr ⟨l, rfl, h3l, h5l, .inr ?_⟩))
                rw [List.any_eq_true] at hany
                obtain ⟨x, hx, hxe⟩ := hany
                obtain ⟨s, hs, rfl⟩ := List.mem_map.mp hx
                exact ⟨s, hs, by simpa using hxe⟩
              · refine iff_of_false (by rw [if_neg hany]; simp [raisesValidationError]) ?_
                rintro (habs | ⟨xs1, heq, hlen⟩ | ⟨l1, heq, _, _, hbad⟩)
                · exact habs (l.map PyVal.str) rfl
                · have hx : xs1 = l.map PyVal.str := by
                    injection heq with h1
                    exact h1.symm
                  subst hx
                  rcases hlen with h | h
                  · rw [List.length_map] at h; exact absurd h (Nat.not_lt.mpr h3l)
                  · rw [List.length_map] at h; exact absurd h (Nat.not_lt.mpr h5l)
                · have hl : l1 = l := map_str_injective (by injection heq with h1; exact h1.symm)
                  subst hl
                  rcases hbad with hnd | ⟨s, hs, hse⟩
                  · exact hnd ((hasDupStr_eq_false_iff _).mp (Bool.not_eq_true _ ▸ hd))
                  · refine hany ?_
                    rw [List.any_eq_true]
                    exact ⟨normalizeSport s, List.mem_map.mpr ⟨s, hs, rfl⟩, by simp [hse]⟩
          · have hstrf : allStrings xs = false := Bool.not_eq_true _ ▸ hstr
            obtain ⟨m, hm⟩ := with_sports_list_nonstring xs c h3 h5 hstrf
            refine iff_of_false (by rw [hm]; simp [raisesValidationError]) ?_
            rintro (habs | ⟨xs1, heq, hlen⟩ | ⟨l1, heq, _, _, _⟩)
            · exact habs xs rfl
            · have hx : xs1 = xs := by
                injection heq with h1
                exact h1.symm
              subst hx
              rcases hlen with h | h
              · exact absurd h hlt
              · exact absurd h hgt
            · have hx : xs = l1.map PyVal.str := by injection heq
              rw [hx, allStrings_of_map_str] at hstrf
              exact Bool.noConfusion hstrf
  · intro xs heq hlen
    subst heq
    exact with_sports_list_short xs c hlen
  · intro xs heq h3 h5
    subst heq
    exact with_sports_list_long xs c h3 h5
  · intro xs heq h3 h5 hstr
    subst heq
    obtain ⟨m, hm⟩ := with_sports_list_nonstring xs c h3 h5 hstr
    rw [hm]
    rfl

/-- C2 witness for the amended claim: a two-element list is rejected with
the message interpolating the count 2. -/
theorem claim_c2_witness :
    with_sports (.list [PyVal.str "basketball", PyVal.str "soccer"]) initConfig =
      .error (.validationError
        ("Must specify at least " ++ toString MIN_SPORTS ++ " sports (got "
          ++ toString ([PyVal.str "basketball", PyVal.str "soccer"] : List PyVal).length ++ ")"),
        initConfig) :=
  (claim_c2_error_characterization
      (.list [PyVal.str "basketball", PyVal.str "soccer"]) initConfig).2.1
    [PyVal.str "basketball", PyVal.str "soccer"] rfl (by decide)

/-! ### Claim C3 -/

/-- Documents of the shape the builder itself produces: a `sports` list, a
string `generation_mode`, and an `llm` entry that is either absent or a
dictionary. -/
def WellShaped (c : Config) : Prop :=
  (∃ xs, dictGet c "sports" = some (.list xs)) ∧
  (∃ m, dictGet c "generation_mode" = some (.str m)) ∧
  (dictGet c "llm" = Option.none ∨ ∃ l, dictGet c "llm" = some (.dict l))

/-- C3: on a document of builder shape, `validate` raises
`ConfigValidationError` exactly when the sports list is empty, or the mode
is `llm` and the `llm` block is missing, or the block's provider is falsy,
or its model is falsy (a missing field reads as `None`, which is falsy);
and whenever it succeeds it returns the internal document unmodified. -/
theorem claim_c3_validate_characterization (c : Config) (hw : WellShaped c) :
    ((∃ msg, validate c = .error (.validationError msg)) ↔
      (dictGet c "sports" = some (.list []) ∨
        (dictGet c "generation_mode" = some (.str "llm") ∧
          (dictGet c "llm" = Option.none ∨
           ∃ l, dictGet c "llm" = some (.dict l) ∧
             (truthy (dictGetD l "provider" PyVal.none) = false ∨
              truthy (dictGetD l "model" PyVal.none) = false)))))
    ∧ ∀ r, validate c = .ok r → r = c := by
  obtain ⟨⟨xs, hsp⟩, ⟨m, hgm⟩, hllm⟩ := hw
  refine ⟨?_, fun r hr => validate_ok_eq c r hr⟩
  match xs, hsp with
  | [], hsp =>
    refine iff_of_true ⟨"Sports list is required", ?_⟩ (.inl hsp)
    rw [validate, hsp]
    rfl
  | x :: xs1, hsp =>
    have hne1 : truthy (PyVal.list (x :: xs1)) = true := rfl
    by_cases hm : m = "llm"
    · subst hm
      rcases hllm with hnone | ⟨l, hsome⟩
      · refine iff_of_true ⟨"LLM configuration required for LLM mode", ?_⟩
          (.inr ⟨hgm, .inl hnone⟩)
        rw [validate, hsp, hgm, hnone]
        rfl
      · by_cases hp : truthy (dictGetD l "provider" PyVal.none) = true
        · by_cases hmo : truthy (dictGetD l "model" PyVal.none) = true
          · refine iff_of_false ?_ ?_
            · rintro ⟨msg, hmsg⟩
              rw [validate, hsp, hgm, hsome] at hmsg
              simp only [hne1, Bool.not_true, Bool.false_eq_true, if_false, hp, hmo,
                Bool.not_eq_true', if_neg] at hmsg
              exact absurd hmsg (by simp [pyEq])
            · rintro (habs | ⟨_, habs⟩)
              · rw [hsp] at habs
                exact List.noConfusion (by injection (Option.some.inj habs))
              · rcases habs with hnone | ⟨l1, hsome1, hbad⟩
                · rw [hsome] at hnone; exact Option.noConfusion hnone
                · rw [hsome, Option.some.injEq] at hsome1
                  have : l1 = l := by injection hsome1.symm
                  subst this
                  rcases hbad with h | h
                  · rw [hp] at h; exact Bool.noConfusion h
                  · rw [hmo] at h; exact Bool.noConfusion h
          · have hmof : truthy (dictGetD l "model" PyVal.none) = false :=
              Bool.not_eq_true _ ▸ hmo
            refine iff_of_true ⟨"LLM model is required for LLM mode", ?_⟩
              (.inr ⟨hgm, .inr ⟨l, hsome, .inr hmof⟩⟩)
            rw [validate, hsp, hgm, hsome]
            simp [pyEq, hp, hmof, hne1]
        · have hpf : truthy (dictGetD l "provider" PyVal.none) = false :=
            Bool.not_eq_true _ ▸ hp
          refine iff_of_true ⟨"LLM provider is required for LLM mode", ?_⟩
            (.inr ⟨hgm, .inr ⟨l, hsome, .inl hpf⟩⟩)
          rw [validate, hsp, hgm, hsome]
          simp [pyEq, hpf, hne1]
    · refine iff_of_false ?_ ?_
      · rintro ⟨msg, hmsg⟩
        rw [validate, hsp, hgm] at hmsg
        have hpe : pyEq (PyVal.str m) (PyVal.str "llm") = false := by
          simp [pyEq, hm]
        simp only [hne1, Bool.not_true, Bool.false_eq_true, if_false, hpe] at hmsg
        exact Except.noConfusion hmsg
      · rintro (habs | ⟨habs, _⟩)
        · rw [hsp] at habs
          exact List.noConfusion (by injection (Option.some.inj habs))
        · rw [hgm, Option.some.injEq] at habs
          exact hm (by injection habs)

/-- C3 witness: the fresh builder document is well-shaped and is rejected
(with a `ConfigValidationError`) because its sports list is empty. -/
theorem claim_c3_witness :
    ∃ msg, validate initConfig = .error (.validationError msg) :=
  ((claim_c3_validate_characterization initConfig
      ⟨⟨[], rfl⟩, ⟨"template", rfl⟩, .inl rfl⟩).1).mpr (.inl rfl)

/-! ### Claim C4 -/

/-- C4 counterexample: starting from a fresh builder,
`with_llm_provider("together")` followed by
`with_generation_mode("template")` succeeds and leaves a document that has
an `llm` key while its generation mode is `template`, refuting the claimed
invariant. -/
theorem claim_c4_counterexample :
    (match runOps initConfig [BOp.provider "together", BOp.genMode "template"] with
     | some c => dictContains c "llm" = true
         ∧ dictGet c "generation_mode" = some (PyVal.str "template")
     | Option.none => False) :=
  ⟨rfl, rfl⟩

/-- C4 (amended): along any sequence of successful setter calls from a
fresh builder in which `with_generation_mode("template")` is never called,
a document containing an `llm` key has generation mode `llm`.  (Calling
`with_generation_mode("template")` after an llm-enabling call leaves the
stale `llm` block in place with mode `template`, as the counterexample
shows.) -/
theorem claim_c4_amended (ops : List BOp) (c : Config)
    (hops : ∀ op ∈ ops, op ≠ BOp.genMode "template")
    (hrun : runOps initConfig ops = some c)
    (hllm : dictContains c "llm" = true) :
    dictGet c "generation_mode" = some (PyVal.str "llm") := by
  refine runOps_preserves
    (fun d => dictContains d "llm" = true → dictGet d "generation_mode" = some (PyVal.str "llm"))
    (fun op => op ≠ BOp.genMode "template") ?_ ops initConfig c
    (fun h => absurd h (by decide)) hops hrun hllm
  intro d op d1 hP hQ happ
  match op with
  | .sports v =>
    obtain ⟨ns, rfl, -⟩ := with_sports_ok_strong v d d1 happ
    intro hc
    rw [dictGet_dictSet_ne _ _ _ _ (by decide)]
    rw [dictContains_dictSet_ne _ _ _ _ (by decide)] at hc
    exact hP hc
  | .retry b =>
    simp only [applyOp, Except.ok.injEq] at happ
    subst happ
    intro hc
    rw [with_retry, dictGet_dictSet_ne _ _ _ _ (by decide)]
    rw [with_retry, dictContains_dictSet_ne _ _ _ _ (by decide)] at hc
    exact hP hc
  | .genMode m =>
    obtain ⟨hm, hshape⟩ := with_generation_mode_ok_shape m d d1 happ
    have hmll : m = "llm" := by
      rcases hm with h | h
      · exact absurd (by rw [h]) hQ
      · exact h
    subst hmll
    intro _
    rcases hshape with rfl | rfl
    · exact dictGet_dictSet_same d "generation_mode" (PyVal.str "llm")
    · rw [dictGet_dictSet_ne _ _ _ _ (by decide)]
      exact dictGet_dictSet_same d "generation_mode" (PyVal.str "llm")
  | .provider p =>
    obtain ⟨l, rfl⟩ := with_llm_provider_ok_shape p d d1 happ
    intro _
    exact dictGet_dictSet_same _ "generation_mode" (PyVal.str "llm")
  | .model m =>
    obtain ⟨l, rfl⟩ := with_llm_model_ok_shape m d d1 happ
    intro _
    exact dictGet_dictSet_same _ "generation_mode" (PyVal.str "llm")

/-- C4 witness for the amended claim: after the single call
`with_llm_provider("together")` the document has an `llm` key and its mode
is `llm`. -/
theorem claim_c4_witness :
    dictGet [("sports", PyVal.list []), ("retry_enabled", PyVal.bool true),
             ("generation_mode", PyVal.str "llm"),
             ("llm", PyVal.dict DEFAULT_LLM_CONFIG)] "generation_mode" =
      some (PyVal.str "llm") :=
  claim_c4_amended [BOp.provider "together"]
    [("sports", PyVal.list []), ("retry_enabled", PyVal.bool true),
     ("generation_mode", PyVal.str "llm"), ("llm", PyVal.dict DEFAULT_LLM_CONFIG)]
    (fun op hop => by
      rw [List.mem_singleton] at hop
      subst hop
      exact fun h => BOp.noConfusion h)
    rfl rfl

/-! ### Claim C7 -/

/-- C7 counterexample: a document wrapped verbatim by `from_dict` with a
single-entry sports list is accepted by `validate`, refuting the claim
that every accepted document has 3 to 5 sports. -/
theorem claim_c7_counterexample :
    validate (from_dict [("sports", PyVal.list [PyVal.str "x"]),
                         ("generation_mode", PyVal.str "template")]) =
      .ok [("sports", PyVal.list [PyVal.str "x"]),
           ("generation_mode", PyVal.str "template")]
    ∧ ([PyVal.str "x"] : List PyVal).length < MIN_SPORTS :=
  ⟨rfl, by decide⟩

/-- C7 (amended): every document built from a fresh builder by successful
setter calls and accepted by `validate` has a sports list of 3 to 5
entries, pairwise distinct and non-empty, each a fixed point of the
trim-and-lowercase normalization — so the list is also duplicate-free and
free of empty entries after normalization.  Documents wrapped verbatim by
`from_dict` or `load` are only checked for a non-empty (truthy) sports
field, so for example a loaded single-sport document is accepted (see the
counterexample). -/
theorem claim_c7_amended (ops : List BOp) (c r : Config)
    (hrun : runOps initConfig ops = some c) (hv : validate c = .ok r) :
    ∃ l : List String, dictGet c "sports" = some (.list (l.map PyVal.str)) ∧
      MIN_SPORTS ≤ l.length ∧ l.length ≤ MAX_SPORTS ∧ l.Nodup ∧ (∀ s ∈ l, s ≠ "") ∧
      (∀ s ∈ l, normalizeSport s = s) ∧
      (l.map normalizeSport).Nodup ∧ (∀ s ∈ l, normalizeSport s ≠ "") := by
  have hstep : ∀ d op d1,
      (dictGet d "sports" = some (.list []) ∨
        ∃ l : List String, dictGet d "sports" = some (.list (l.map PyVal.str)) ∧
          MIN_SPORTS ≤ l.length ∧ l.length ≤ MAX_SPORTS ∧ l.Nodup ∧ (∀ s ∈ l, s ≠ "") ∧
          (∀ s ∈ l, normalizeSport s = s) ∧
          (l.map normalizeSport).Nodup ∧ (∀ s ∈ l, normalizeSport s ≠ "")) →
      True → applyOp d op = .ok d1 →
      (dictGet d1 "sports" = some (.list []) ∨
        ∃ l : List String, dictGet d1 "sports" = some (.list (l.map PyVal.str)) ∧
          MIN_SPORTS ≤ l.length ∧ l.length ≤ MAX_SPORTS ∧ l.Nodup ∧ (∀ s ∈ l, s ≠ "") ∧
          (∀ s ∈ l, normalizeSport s = s) ∧
          (l.map normalizeSport).Nodup ∧ (∀ s ∈ l, normalizeSport s ≠ "")) := by
    intro d op d1 hP _ happ
    match op with
    | .sports v =>
      obtain ⟨ns, rfl, h3, h5, hnd, hne, hfix⟩ := with_sports_ok_strong v d d1 happ
      have hmap : ns.map normalizeSport = ns := by
        have h0 : ns.map normalizeSport = ns.map id :=
          List.map_congr_left (fun a ha => hfix a ha)
        rwa [List.map_id] at h0
      refine .inr ⟨ns, dictGet_dictSet_same d "sports" _, h3, h5, hnd, hne, hfix, ?_, ?_⟩
      · rw [hmap]
        exact hnd
      · intro s hs
        rw [hfix s hs]
        exact hne s hs
    | .retry b =>
      simp only [applyOp, Except.ok.injEq] at happ
      subst happ
      rw [with_retry]
      rcases hP with h | ⟨l, hl, hrest⟩
      · exact .inl (by rw [dictGet_dictSet_ne _ _ _ _ (by decide)]; exact h)
      · exact .inr ⟨l, by rw [dictGet_dictSet_ne _ _ _ _ (by decide)]; exact hl, hrest⟩
    | .genMode m =>
      obtain ⟨-, hshape⟩ := with_generation_mode_ok_shape m d d1 happ
      have hget : dictGet d1 "sports" = dictGet d "sports" := by
        rcases hshape with rfl | rfl
        · rw [dictGet_dictSet_ne _ _ _ _ (by decide)]
        · rw [dictGet_dictSet_ne _ _ _ _ (by decide),
              dictGet_dictSet_ne _ _ _ _ (by decide)]
      rw [hget]
      exact hP
    | .provider p =>
      obtain ⟨l, rfl⟩ := with_llm_provider_ok_shape p d d1 happ
      have hget : dictGet (dictSet (dictSet (ensureLlm d) "llm"
          (PyVal.dict (dictSet l "provider" (PyVal.str p)))) "generation_mode"
          (PyVal.str "llm")) "sports" = dictGet d "sports" := by
        rw [dictGet_dictSet_ne _ _ _ _ (by decide),
            dictGet_dictSet_ne _ _ _ _ (by decide),
            dictGet_ensureLlm_ne d "sports" (by decide)]
      rw [hget]
      exact hP
    | .model m =>
      obtain ⟨l, rfl⟩ := with_llm_model_ok_shape m d d1 happ
      have hget : dictGet (dictSet (dictSet (ensureLlm d) "llm"
          (PyVal.dict (dictSet l "model" (PyVal.str m)))) "generation_mode"
          (PyVal.str "llm")) "sports" = dictGet d "sports" := by
        rw [dictGet_dictSet_ne _ _ _ _ (by decide),
            dictGet_dictSet_ne _ _ _ _ (by decide),
            dictGet_ensureLlm_ne d "sports" (by decide)]
      rw [hget]
      exact hP
  have hinv := runOps_preserves _ (fun _ => True) hstep ops initConfig c (.inl rfl)
    (fun _ _ => trivial) hrun
  rcases hinv with hempty | hgood
  · obtain ⟨sp, hsp, htr⟩ := validate_ok_sports_truthy c r hv
    rw [hempty, Option.some.injEq] at hsp
    rw [← hsp] at htr
    exact absurd htr (by decide)
  · exact hgood

/-- C7 witness for the amended claim: a three-sport builder document is
accepted and its stored list has the stated properties. -/
theorem claim_c7_witness :
    ∃ l : List String,
      dictGet [("sports", PyVal.list [PyVal.str "basketball", PyVal.str "soccer",
                  PyVal.str "tennis"]),
               ("retry_enabled", PyVal.bool true),
               ("generation_mode", PyVal.str "template")] "sports" =
        some (.list (l.map PyVal.str)) ∧
      MIN_SPORTS ≤ l.length ∧ l.length ≤ MAX_SPORTS ∧ l.Nodup ∧ (∀ s ∈ l, s ≠ "") ∧
      (∀ s ∈ l, normalizeSport s = s) ∧
      (l.map normalizeSport).Nodup ∧ (∀ s ∈ l, normalizeSport s ≠ "") :=
  claim_c7_amended [BOp.sports (.list [PyVal.str "basketball", PyVal.str "soccer",
      PyVal.str "tennis"])]
    [("sports", PyVal.list [PyVal.str "basketball", PyVal.str "soccer", PyVal.str "tennis"]),
     ("retry_enabled", PyVal.bool true), ("generation_mode", PyVal.str "template")]
    _ rfl rfl

/-! ### Claim C5 -/

/-- C5: for every builder document accepted by `validate`, saving (validate
then serialize to JSON) followed by loading (parse then wrap verbatim via
`from_dict`) yields a document equal field-for-field to the one before
saving, and `validate` on the loaded builder succeeds, returning that same
document. -/
theorem claim_c5_save_load_roundtrip (c r : Config) (h : validate c = .ok r) :
    save_doc c = .ok (toJson (.dict c)) ∧
    load_doc (toJson (.dict c)) = .ok c ∧
    validate c = .ok c ∧ r = c := by
  have hr : r = c := validate_ok_eq c r h
  subst hr
  refine ⟨?_, ?_, h, rfl⟩
  · rw [save_doc, h]
    rfl
  · rw [load_doc, toJson, fromJson, fromJsonDict_toJsonDict]
    rfl

/-- C5 witness: a concrete three-sport template document survives the
save/load round trip unchanged. -/
theorem claim_c5_witness :
    load_doc (toJson (.dict [("sports", PyVal.list [PyVal.str "basketball",
        PyVal.str "soccer", PyVal.str "tennis"]),
      ("retry_enabled", PyVal.bool true),
      ("generation_mode", PyVal.str "template")])) =
      .ok [("sports", PyVal.list [PyVal.str "basketball", PyVal.str "soccer",
        PyVal.str "tennis"]),
      ("retry_enabled", PyVal.bool true),
      ("generation_mode", PyVal.str "template")] :=
  (claim_c5_save_load_roundtrip
    [("sports", PyVal.list [PyVal.str "basketball", PyVal.str "soccer", PyVal.str "tennis"]),
     ("retry_enabled", PyVal.bool true), ("generation_mode", PyVal.str "template")]
    _ rfl).2.1

/-! ### Claim C6 -/

theorem with_generation_mode_llm_existing (c : Config) (l : PyVal)
    (hl : dictGet c "llm" = some l) :
    with_generation_mode "llm" c = .ok (dictSet c "generation_mode" (PyVal.str "llm")) := by
  have hcont : dictContains (dictSet c "generation_mode" (PyVal.str "llm")) "llm" = true := by
    rw [dictContains, dictGet_dictSet_ne _ _ _ _ (by decide), hl]
    rfl
  rw [with_generation_mode, if_neg (by decide), if_neg (by simp [hcont])]

/-- C6: `with_generation_mode("llm")` on a fresh builder injects the
default llm block, whose provider is `together` and whose model string
contains `Llama`; when an `llm` block already exists the injection does
nothing — the call only (re)writes `generation_mode`, so calling it again
with mode already `llm` leaves the document unchanged and in particular
never resets a provider previously overridden by `with_llm_provider`. -/
theorem claim_c6_llm_defaults :
    (with_generation_mode "llm" initConfig =
        .ok (dictSet (dictSet initConfig "generation_mode" (PyVal.str "llm"))
              "llm" (PyVal.dict DEFAULT_LLM_CONFIG))
      ∧ dictGet DEFAULT_LLM_CONFIG "provider" = some (PyVal.str "together")
      ∧ ∃ m, dictGet DEFAULT_LLM_CONFIG "model" = some (PyVal.str m)
          ∧ strContains m "Llama" = true)
    ∧ (∀ c l, dictGet c "llm" = some l →
        with_generation_mode "llm" c = .ok (dictSet c "generation_mode" (PyVal.str "llm"))
        ∧ dictGet (dictSet c "generation_mode" (PyVal.str "llm")) "llm" = some l)
    ∧ (∀ c l, dictGet c "llm" = some l →
        dictGet c "generation_mode" = some (PyVal.str "llm") →
        with_generation_mode "llm" c = .ok c) := by
  refine ⟨⟨rfl, rfl, "meta-llama/Llama-3.3-70B-Instruct-Turbo-Free", rfl, rfl⟩, ?_, ?_⟩
  · intro c l hl
    refine ⟨with_generation_mode_llm_existing c l hl, ?_⟩
    rw [dictGet_dictSet_ne _ _ _ _ (by decide)]
    exact hl
  · intro c l hl hgm
    rw [with_generation_mode_llm_existing c l hl, dictSet_eq_self c _ _ hgm]

/-- C6 witness: on a document whose provider was overridden to
`huggingface` and whose mode is already `llm`, a second
`with_generation_mode("llm")` call returns the document unchanged. -/
theorem claim_c6_witness :
    with_generation_mode "llm" [("generation_mode", PyVal.str "llm"),
        ("llm", PyVal.dict [("provider", PyVal.str "huggingface"),
          ("model", PyVal.str "meta-llama/Llama-3.3-70B-Instruct-Turbo-Free")])] =
      .ok [("generation_mode", PyVal.str "llm"),
        ("llm", PyVal.dict [("provider", PyVal.str "huggingface"),
          ("model", PyVal.str "meta-llama/Llama-3.3-70B-Instruct-Turbo-Free")])] :=
  claim_c6_llm_defaults.2.2
    [("generation_mode", PyVal.str "llm"),
     ("llm", PyVal.dict [("provider", PyVal.str "huggingface"),
       ("model", PyVal.str "meta-llama/Llama-3.3-70B-Instruct-Turbo-Free")])]
    (PyVal.dict [("provider", PyVal.str "huggingface"),
       ("model", PyVal.str "meta-llama/Llama-3.3-70B-Instruct-Turbo-Free")])
    rfl rfl

/-! ### Claim C8 -/

/-- C8: every mutating builder operation is atomic — whenever it raises, the
document at the moment of the raise equals the document before the call
(`errStateD` projects the state carried by the error) — and the only
mutation besides the operation's stated field write is the additive,
idempotent injection of the default llm block: when an `llm` value already
exists, `with_generation_mode` keeps it untouched and the provider/model
setters overwrite only their own field inside it; when it is absent, the
provider setter first injects the default block and then overwrites only
the provider field. -/
theorem claim_c8_atomicity :
    (∀ v c, errStateD (with_sports v c) c = c)
    ∧ (∀ m c, errStateD (with_generation_mode m c) c = c)
    ∧ (∀ p c, errStateD (with_llm_provider p c) c = c)
    ∧ (∀ m c, errStateD (with_llm_model m c) c = c)
    ∧ (∀ c l m c1, dictGet c "llm" = some l → with_generation_mode m c = .ok c1 →
        dictGet c1 "llm" = some l)
    ∧ (∀ c l p c1, dictGet c "llm" = some (PyVal.dict l) → with_llm_provider p c = .ok c1 →
        dictGet c1 "llm" = some (PyVal.dict (dictSet l "provider" (PyVal.str p))))
    ∧ (∀ c l m c1, dictGet c "llm" = some (PyVal.dict l) → with_llm_model m c = .ok c1 →
        dictGet c1 "llm" = some (PyVal.dict (dictSet l "model" (PyVal.str m))))
    ∧ (∀ c p c1, dictGet c "llm" = Option.none → with_llm_provider p c = .ok c1 →
        dictGet c1 "llm" =
          some (PyVal.dict (dictSet DEFAULT_LLM_CONFIG "provider" (PyVal.str p)))) := by
  have hens_some : ∀ (c : Config) (l : PyVal), dictGet c "llm" = some l → ensureLlm c = c := by
    intro c l hl
    rw [ensureLlm, if_pos (by rw [dictContains, hl]; rfl)]
  have hens_none : ∀ c : Config, dictGet c "llm" = Option.none →
      ensureLlm c = dictSet c "llm" (PyVal.dict DEFAULT_LLM_CONFIG) := by
    intro c hl
    rw [ensureLlm, if_neg (by rw [dictContains, hl]; exact Bool.noConfusion)]
  refine ⟨?_, ?_, ?_, ?_, ?_, ?_, ?_, ?_⟩
  · intro v c
    match v with
    | .str _ => rfl
    | .int _ => rfl
    | .bool _ => rfl
    | .none => rfl
    | .dict _ => rfl
    | .list xs =>
      rw [with_sports]
      split
      · rfl
      · split
        · rfl
        · split
          · rfl
          · split
            · rfl
            · split
              · rfl
              · rfl
  · intro m c
    rw [with_generation_mode]
    split
    · rfl
    · split
      · rfl
      · rfl
  · intro p c
    match hl : dictGet c "llm" with
    | some l =>
      rw [with_llm_provider, hens_some c l hl]
      split
      · rfl
      · split
        · rfl
        · rfl
        · rfl
    | Option.none =>
      rw [with_llm_provider, hens_none c hl, dictGet_dictSet_same]
      split
      · rfl
      · rfl
  · intro m c
    match hl : dictGet c "llm" with
    | some l =>
      rw [with_llm_model, hens_some c l hl]
      split
      · rfl
      · rfl
      · rfl
    | Option.none =>
      rw [with_llm_model, hens_none c hl, dictGet_dictSet_same]
      rfl
  · intro c l m c1 hl happ
    have hcont : dictContains (dictSet c "generation_mode" (PyVal.str m)) "llm" = true := by
      rw [dictContains, dictGet_dictSet_ne _ _ _ _ (by decide), hl]
      rfl
    rw [with_generation_mode] at happ
    split at happ
    · exact Except.noConfusion happ
    · split at happ
      · rename_i hcond
        rw [hcont] at hcond
        simp at hcond
      · rw [← Except.ok.inj happ, dictGet_dictSet_ne _ _ _ _ (by decide)]
        exact hl
  · intro c l p c1 hl happ
    rw [with_llm_provider, hens_some c (PyVal.dict l) hl, hl] at happ
    split at happ
    · exact Except.noConfusion happ
    · rw [← Except.ok.inj happ, dictGet_dictSet_ne _ _ _ _ (by decide),
          dictGet_dictSet_same]
  · intro c l m c1 hl happ
    rw [with_llm_model, hens_some c (PyVal.dict l) hl, hl] at happ
    rw [← Except.ok.inj happ, dictGet_dictSet_ne _ _ _ _ (by decide),
        dictGet_dictSet_same]
  · intro c p c1 hl happ
    rw [with_llm_provider, hens_none c hl, dictGet_dictSet_same] at happ
    split at happ
    · exact Except.noConfusion happ
    · rw [← Except.ok.inj happ, dictGet_dictSet_ne _ _ _ _ (by decide),
          dictGet_dictSet_same]

/-- C8 witness: overriding the provider on a document that already has an
llm block rewrites only the provider field of that block. -/
theorem claim_c8_witness :
    dictGet [("llm", PyVal.dict [("provider", PyVal.str "huggingface"),
                ("model", PyVal.str "m0")]),
             ("generation_mode", PyVal.str "llm")] "llm" =
      some (PyVal.dict (dictSet [("provider", PyVal.str "together"), ("model", PyVal.str "m0")]
          "provider" (PyVal.str "huggingface"))) :=
  claim_c8_atomicity.2.2.2.2.2.1
    [("llm", PyVal.dict [("provider", PyVal.str "together"), ("model", PyVal.str "m0")])]
    [("provider", PyVal.str "together"), ("model", PyVal.str "m0")] "huggingface"
    [("llm", PyVal.dict [("provider", PyVal.str "huggingface"), ("model", PyVal.str "m0")]),
     ("generation_mode", PyVal.str "llm")] rfl rfl

/-! ### Claim C9 -/

theorem ccfd_mem_iff (base : Dict) (cand : Dict) (k : String) :
    k ∈ (compute_changes_from_default base cand).1 ↔
      ∃ v, (k, v) ∈ cand ∧ pyEq (dictGetD base k PyVal.none) v = false := by
  induction cand with
  | nil => simp [compute_changes_from_default]
  | cons kv rest ih =>
    obtain ⟨key, v0⟩ := kv
    rw [compute_changes_from_default]
    by_cases hEq : pyEq (dictGetD base key PyVal.none) v0 = true
    · rw [if_pos hEq, ih]
      constructor
      · rintro ⟨v, hv, hne⟩
        exact ⟨v, List.mem_cons_of_mem _ hv, hne⟩
      · rintro ⟨v, hv, hne⟩
        rcases List.mem_cons.mp hv with heq | hv2
        · obtain ⟨rfl, rfl⟩ := Prod.mk.inj heq
          rw [hEq] at hne
          exact Bool.noConfusion hne
        · exact ⟨v, hv2, hne⟩
    · rw [if_neg hEq]
      simp only [List.mem_cons]
      constructor
      · rintro (rfl | hk)
        · exact ⟨v0, .inl rfl, Bool.not_eq_true _ ▸ hEq⟩
        · obtain ⟨v, hv, hne⟩ := ih.mp hk
          exact ⟨v, .inr hv, hne⟩
      · rintro ⟨v, hv, hne⟩
        rcases hv with heq | hv2
        · obtain ⟨rfl, rfl⟩ := Prod.mk.inj heq
          exact .inl rfl
        · exact .inr (ih.mpr ⟨v, hv2, hne⟩)

theorem ccfd_sublist (base : Dict) (cand : Dict) :
    ((compute_changes_from_default base cand).1).Sublist (cand.map Prod.fst) := by
  induction cand with
  | nil => simp [compute_changes_from_default]
  | cons kv rest ih =>
    obtain ⟨key, v0⟩ := kv
    rw [compute_changes_from_default]
    by_cases hEq : pyEq (dictGetD base key PyVal.none) v0 = true
    · rw [if_pos hEq]
      exact ih.cons key
    · rw [if_neg hEq]
      exact ih.cons₂ key

theorem ccfd_keys_eq (base : Dict) (cand : Dict) :
    (compute_changes_from_default base cand).2.map Prod.fst =
      (compute_changes_from_default base cand).1 := by
  induction cand with
  | nil => simp [compute_changes_from_default]
  | cons kv rest ih =>
    obtain ⟨key, v0⟩ := kv
    rw [compute_changes_from_default]
    by_cases hEq : pyEq (dictGetD base key PyVal.none) v0 = true
    · rw [if_pos hEq]
      exact ih
    · rw [if_neg hEq]
      simpa using ih

theorem ccfd_details (base : Dict) (cand : Dict) (k : String) (vo vn : PyVal)
    (hmem : (k, (vo, vn)) ∈ (compute_changes_from_default base cand).2) :
    vo = dictGetD base k PyVal.none ∧ (k, vn) ∈ cand ∧ pyEq vo vn = false := by
  induction cand with
  | nil => simp [compute_changes_from_default] at hmem
  | cons kv rest ih =>
    obtain ⟨key, v0⟩ := kv
    rw [compute_changes_from_default] at hmem
    by_cases hEq : pyEq (dictGetD base key PyVal.none) v0 = true
    · rw [if_pos hEq] at hmem
      obtain ⟨h1, h2, h3⟩ := ih hmem
      exact ⟨h1, List.mem_cons_of_mem _ h2, h3⟩
    · rw [if_neg hEq] at hmem
      rcases List.mem_cons.mp hmem with heq | h2
      · obtain ⟨rfl, hpair⟩ := Prod.mk.inj heq
        obtain ⟨rfl, rfl⟩ := Prod.mk.inj hpair
        exact ⟨rfl, List.mem_cons_self _ _, Bool.not_eq_true _ ▸ hEq⟩
      · obtain ⟨h1, h2, h3⟩ := ih h2
        exact ⟨h1, List.mem_cons_of_mem _ h2, h3⟩

theorem ccfd_no_changes (base : Dict) (cand : Dict)
    (hall : ∀ p ∈ cand, pyEq (dictGetD base p.1 PyVal.none) p.2 = true) :
    compute_changes_from_default base cand = ([], []) := by
  induction cand with
  | nil => rfl
  | cons kv rest ih =>
    obtain ⟨key, v0⟩ := kv
    rw [compute_changes_from_default,
        if_pos (hall (key, v0) (List.mem_cons_self _ _)),
        ih (fun p hp => hall p (List.mem_cons_of_mem _ hp))]

/-- C9: the diff helper reports exactly the keys of the candidate document
whose values differ (by Python equality) from the base value at that key,
with a key missing from the base comparing as `None`; the changed-key list
follows the candidate's key-iteration order (it is a sublist of the
candidate's keys, so keys present only in the base are never reported);
the details map lists the same keys and pairs each with its correct old
(base) and new (candidate) value; and a candidate agreeing with the base
on all of its keys produces an empty list and an empty mapping. -/
theorem claim_c9_diff_correct (base cand : Dict) :
    (∀ k, k ∈ (compute_changes_from_default base cand).1 ↔
      ∃ v, (k, v) ∈ cand ∧ pyEq (dictGetD base k PyVal.none) v = false)
    ∧ ((compute_changes_from_default base cand).1).Sublist (cand.map Prod.fst)
    ∧ ((compute_changes_from_default base cand).2.map Prod.fst =
        (compute_changes_from_default base cand).1)
    ∧ (∀ k vo vn, (k, (vo, vn)) ∈ (compute_changes_from_default base cand).2 →
        vo = dictGetD base k PyVal.none ∧ (k, vn) ∈ cand ∧ pyEq vo vn = false)
    ∧ ((∀ p ∈ cand, pyEq (dictGetD base p.1 PyVal.none) p.2 = true) →
        compute_changes_from_default base cand = ([], [])) :=
  ⟨ccfd_mem_iff base cand, ccfd_sublist base cand, ccfd_keys_eq base cand,
   fun k vo vn hm => ccfd_details base cand k vo vn hm, ccfd_no_changes base cand⟩

/-- C9 witness: a candidate equal to the base on all keys diffs to
`([], {})`, and a single changed key is reported with its old and new
value. -/
theorem claim_c9_witness :
    compute_changes_from_default
      [("generation_mode", PyVal.str "template"), ("retry_enabled", PyVal.bool true)]
      [("generation_mode", PyVal.str "template"), ("retry_enabled", PyVal.bool true)] =
      ([], []) :=
  (claim_c9_diff_correct
    [("generation_mode", PyVal.str "template"), ("retry_enabled", PyVal.bool true)]
    [("generation_mode", PyVal.str "template"), ("retry_enabled", PyVal.bool true)]).2.2.2.2
    (by decide)

/-! ### Claim C10 -/

/-- C10 (spec-modelled, `create_generator_script` is not under `src/`): for
every parameter set, the generated reproduction script for mode `template`
contains no provider-setting and no model-setting call, while the script
for mode `llm` contains exactly one of each, carrying the supplied provider
and model strings, whose rendering interpolates them literally. -/
theorem claim_c10_generator_script (sports : List String) (provider model : String)
    (retry : Bool) (timestamp : String) :
    ((create_generator_script sports "template" provider model retry timestamp).countP
        isProviderCall = 0
     ∧ (create_generator_script sports "template" provider model retry timestamp).countP
        isModelCall = 0)
    ∧ ((create_generator_script sports "llm" provider model retry timestamp).countP
          isProviderCall = 1
       ∧ (create_generator_script sports "llm" provider model retry timestamp).countP
          isModelCall = 1
       ∧ ScriptLine.callProvider provider ∈
          create_generator_script sports "llm" provider model retry timestamp
       ∧ ScriptLine.callModel model ∈
          create_generator_script sports "llm" provider model retry timestamp
       ∧ renderLine (ScriptLine.callProvider provider) =
          "builder.with_llm_provider(\x22" ++ provider ++ "\x22)"
       ∧ renderLine (ScriptLine.callModel model) =
          "builder.with_llm_model(\x22" ++ model ++ "\x22)") := by
  cases retry <;>
    simp [create_generator_script, isProviderCall, isModelCall, renderLine,
      List.countP_append, List.countP_cons]

end SportsPoetry
